import Mathlib

/-!
Verification of the MicroHydra IMU_Live app and the shared status bar.

The definitions below are a shallow embedding of the Python sources
`app-source/IMU_Live/IMU_Live.py` and `lib/hydra/statusbar.py`:
pure helpers become Lean functions, the I2C bus is an explicit
`Except`-valued input, floating point arithmetic is modelled over the
rationals (division) and the reals (trigonometry), and the polling
loops become effect-trace functions.
-/

namespace IMULive

/-- MPU I2C addresses to try, in the fixed priority order of the source. -/
def MPU_ADDRESSES : List Nat := [0x68, 0x69]

/-- Shallow embedding of `MPUReader._bytes_to_int16`: combine two bytes and
interpret the 16-bit pattern as a two's-complement signed integer. -/
def bytes_to_int16 (high_byte low_byte : Nat) : Int :=
  let value := (high_byte <<< 8) ||| low_byte
  if value ≥ 0x8000 then (value : Int) - 0x10000 else (value : Int)

/-- A 14-byte register block, as filled by `i2c.readfrom_mem_into`. -/
abbrev RegBlock := Fin 14 → Nat

/-- Shallow embedding of `MPUReader.read_raw_data`: the bus transaction is an
explicit `Except` input; any bus failure is swallowed (the `except` clause)
and returned as `none`, a successful 14-byte block is decoded into the six
signed axis values, skipping the temperature bytes 6-7. -/
def read_raw_data (busRes : Except String RegBlock) :
    Option (Int × Int × Int × Int × Int × Int) :=
  match busRes with
  | .error _ => none
  | .ok b =>
      some (bytes_to_int16 (b 0) (b 1), bytes_to_int16 (b 2) (b 3),
            bytes_to_int16 (b 4) (b 5), bytes_to_int16 (b 8) (b 9),
            bytes_to_int16 (b 10) (b 11), bytes_to_int16 (b 12) (b 13))

/-- Accelerometer scale constant (LSB/g), from the source. -/
def ACCEL_SCALE : ℚ := 16384

/-- Gyroscope scale constant (LSB/(deg/s)), from the source. -/
def GYRO_SCALE : ℚ := 131

/-- Shallow embedding of `MPUReader.read_scaled_data`: propagate a failed raw
read as `none`, otherwise divide each axis by its fixed scale constant. -/
def read_scaled_data (busRes : Except String RegBlock) :
    Option (ℚ × ℚ × ℚ × ℚ × ℚ × ℚ) :=
  match read_raw_data busRes with
  | none => none
  | some (accel_x, accel_y, accel_z, gyro_x, gyro_y, gyro_z) =>
      some ((accel_x : ℚ) / ACCEL_SCALE, (accel_y : ℚ) / ACCEL_SCALE,
            (accel_z : ℚ) / ACCEL_SCALE, (gyro_x : ℚ) / GYRO_SCALE,
            (gyro_y : ℚ) / GYRO_SCALE, (gyro_z : ℚ) / GYRO_SCALE)

/-- The all-0xFF register block, used as a concrete negative-value input. -/
def allFF : RegBlock := fun _ => 0xFF

/-- The Python format `0x{d:02X}`: uppercase hexadecimal digits of `d`,
left-padded with zeros to at least two digits. -/
def hex02 (d : Nat) : String :=
  let ds := (Nat.toDigits 16 d).map Char.toUpper
  String.mk (List.replicate (2 - ds.length) '0' ++ ds)

/-- The diagnostic device list built at the end of `try_init_imu`:
`", ".join(f"0x{d:02X}" for d in devices)`. -/
def deviceListStr (devices : List Nat) : String :=
  String.intercalate ", " (devices.map (fun d => "0x" ++ hex02 d))

/-- The `for addr in MPU_ADDRESSES` loop of `try_init_imu`: try each candidate
address in order; a candidate absent from the scan is skipped, a candidate
whose `MPUReader` construction (the wake handshake) raises is skipped by the
`continue`, and the first candidate that is present and wakes wins. -/
def tryAddrs : List Nat → List Nat → (Nat → Bool) → Option Nat
  | [], _, _ => none
  | a :: rest, devices, wakeOk =>
    if a ∈ devices then
      (if wakeOk a then some a else tryAddrs rest devices wakeOk)
    else tryAddrs rest devices wakeOk

/-- Shallow embedding of `try_init_imu`. The bus constructor and the scan are
explicit `Except` inputs; `wakeOk a` tells whether the wake handshake at
address `a` succeeds. The result mirrors the Python pair `(mpu, error)`:
the address the reader is bound to, or a diagnostic string. -/
def try_init_imu (openRes : Except String Unit)
    (scanRes : Except String (List Nat)) (wakeOk : Nat → Bool) :
    Option Nat × Option String :=
  match openRes with
  | .error e => (none, some ("I2C init failed: " ++ e))
  | .ok _ =>
    match scanRes with
    | .error e => (none, some ("I2C scan failed: " ++ e))
    | .ok devices =>
      if devices = [] then (none, some "No I2C devices found")
      else
        match tryAddrs MPU_ADDRESSES devices wakeOk with
        | some a => (some a, none)
        | none => (none, some ("No MPU found. Devices: " ++ deviceListStr devices))

end IMULive

namespace IMULive

/-- The address loop returns the first candidate, in list order, that is both
enumerated on the bus and accepts the wake handshake. -/
lemma tryAddrs_eq_find (l devices : List Nat) (wakeOk : Nat → Bool) :
    tryAddrs l devices wakeOk =
      l.find? (fun a => decide (a ∈ devices) && wakeOk a) := by
  induction l with
  | nil => rfl
  | cons a rest ih =>
    by_cases hmem : a ∈ devices
    · by_cases hw : wakeOk a
      · simp [tryAddrs, hmem, hw, List.find?]
      · simp [tryAddrs, hmem, hw, List.find?, ih]
    · simp [tryAddrs, hmem, List.find?, ih]

/-- A string with a nonempty left part of an append is nonempty. -/
lemma append_ne_empty_left (s t : String) (h : s ≠ "") : s ++ t ≠ "" := by
  intro hEq
  apply h
  have hlen := congrArg String.length hEq
  rw [String.length_append, String.length_empty] at hlen
  cases s with
  | mk data =>
    cases data with
    | nil => rfl
    | cons c cs => simp [String.length_mk] at hlen

/-- Claim C1: the register codec is total over any 14-byte block; each axis is
decoded as `(high <<< 8) ||| low` with `0x10000` subtracted when the value is
at least `0x8000` (two's complement: the result lies in `[-32768, 32768)` and
is congruent to the unsigned value mod `65536`); accel comes from byte pairs
0-5 and gyro from byte pairs 8-13, skipping bytes 6-7; and the boundary byte
pairs decode to 32767, -32768, -1 and 0 respectively. -/
theorem c1_register_codec :
    (∀ b : RegBlock, read_raw_data (Except.ok b) =
      some (bytes_to_int16 (b 0) (b 1), bytes_to_int16 (b 2) (b 3),
            bytes_to_int16 (b 4) (b 5), bytes_to_int16 (b 8) (b 9),
            bytes_to_int16 (b 10) (b 11), bytes_to_int16 (b 12) (b 13))) ∧
    (∀ h l : Nat, bytes_to_int16 h l =
      if ((h <<< 8) ||| l) ≥ 0x8000
      then (((h <<< 8) ||| l : Nat) : Int) - 0x10000
      else (((h <<< 8) ||| l : Nat) : Int)) ∧
    (∀ h l : Nat, h < 256 → l < 256 →
      -32768 ≤ bytes_to_int16 h l ∧ bytes_to_int16 h l < 32768 ∧
      bytes_to_int16 h l % 65536 = (((h <<< 8) ||| l : Nat) : Int)) ∧
    (bytes_to_int16 0x7F 0xFF = 32767 ∧ bytes_to_int16 0x80 0x00 = -32768 ∧
     bytes_to_int16 0xFF 0xFF = -1 ∧ bytes_to_int16 0x00 0x00 = 0) := by
  refine ⟨fun b => rfl, fun h l => rfl, fun h l hh hl => ?_, by decide⟩
  have hshift : h <<< 8 = h * 256 := by
    simp [Nat.shiftLeft_eq]
  have hv : ((h <<< 8) ||| l) < 65536 := by
    have h1 : h <<< 8 < 2 ^ 16 := by omega
    have h2 : l < 2 ^ 16 := by omega
    have := Nat.or_lt_two_pow h1 h2
    omega
  have hchar : bytes_to_int16 h l =
      if ((h <<< 8) ||| l) ≥ 0x8000
      then (((h <<< 8) ||| l : Nat) : Int) - 0x10000
      else (((h <<< 8) ||| l : Nat) : Int) := rfl
  rw [hchar]
  split
  · rename_i hge
    refine ⟨by omega, by omega, by omega⟩
  · rename_i hlt
    refine ⟨by omega, by omega, by omega⟩

/-- Witness for C1: instantiation of the two's-complement range conjunct at
the concrete byte pair `(0x80, 0x00)`. -/
theorem c1_register_codec_witness :
    -32768 ≤ bytes_to_int16 0x80 0x00 ∧ bytes_to_int16 0x80 0x00 < 32768 ∧
    bytes_to_int16 0x80 0x00 % 65536 = (((0x80 <<< 8) ||| 0x00 : Nat) : Int) :=
  c1_register_codec.2.2.1 0x80 0x00 (by decide) (by decide)

/-- Claim C2: whenever the raw read succeeds, each of the six scaled values is
the corresponding signed raw value divided by its fixed scale constant:
accelerometer axes by 16384, gyroscope axes by 131. -/
theorem c2_scaling (busRes : Except String RegBlock)
    (r : Int × Int × Int × Int × Int × Int)
    (h : read_raw_data busRes = some r) :
    read_scaled_data busRes =
      some ((r.1 : ℚ) / 16384, (r.2.1 : ℚ) / 16384, (r.2.2.1 : ℚ) / 16384,
            (r.2.2.2.1 : ℚ) / 131, (r.2.2.2.2.1 : ℚ) / 131,
            (r.2.2.2.2.2 : ℚ) / 131) := by
  obtain ⟨ax, ay, az, gx, gy, gz⟩ := r
  simp [read_scaled_data, h, ACCEL_SCALE, GYRO_SCALE]

/-- Two-argument arctangent with the C/Python `math.atan2` convention
(quadrant-correct; `atan2 0 0 = 0`), used to model the calls in
`compute_pitch_roll`. -/
noncomputable def atan2 (y x : ℝ) : ℝ :=
  if 0 < x then Real.arctan (y / x)
  else if x < 0 then
    (if 0 ≤ y then Real.arctan (y / x) + Real.pi
     else Real.arctan (y / x) - Real.pi)
  else
    (if 0 < y then Real.pi / 2 else if y < 0 then -(Real.pi / 2) else 0)

/-- Shallow embedding of `compute_pitch_roll`: pitch and roll in degrees from
the accelerometer vector. The source's `except` clause is dead code in
this model, since `atan2` and the square root of a nonnegative sum never
fail. -/
noncomputable def compute_pitch_roll (ax ay az : ℝ) : ℝ × ℝ :=
  (atan2 ay (Real.sqrt (ax * ax + az * az)) * 180 / Real.pi,
   atan2 (-ax) az * 180 / Real.pi)

/-- Claim C3: the orientation estimator is the pure function computing
`pitch = atan2(ay, sqrt(ax^2+az^2)) * 180/pi` and
`roll = atan2(-ax, az) * 180/pi`, and on the degenerate all-zero input it
returns exactly `(0, 0)`. -/
theorem c3_orientation :
    (∀ ax ay az : ℝ, compute_pitch_roll ax ay az =
      (atan2 ay (Real.sqrt (ax * ax + az * az)) * 180 / Real.pi,
       atan2 (-ax) az * 180 / Real.pi)) ∧
    compute_pitch_roll 0 0 0 = (0, 0) := by
  refine ⟨fun ax ay az => rfl, ?_⟩
  have hz : atan2 0 0 = 0 := by
    simp [atan2]
  unfold compute_pitch_roll
  norm_num [Real.sqrt_zero, hz]

/-- Witness for C2: the all-0xFF block decodes to raw value -1 on every axis,
and the scaled reader divides those negative raw values by the scales. -/
theorem c2_scaling_witness :
    read_raw_data (Except.ok allFF) = some (-1, -1, -1, -1, -1, -1) ∧
    read_scaled_data (Except.ok allFF) =
      some (((-1 : Int) : ℚ) / 16384, ((-1 : Int) : ℚ) / 16384,
            ((-1 : Int) : ℚ) / 16384, ((-1 : Int) : ℚ) / 131,
            ((-1 : Int) : ℚ) / 131, ((-1 : Int) : ℚ) / 131) :=
  ⟨by decide, c2_scaling (Except.ok allFF) (-1, -1, -1, -1, -1, -1) (by decide)⟩

end IMULive

namespace IMULive

/-- Claim C4: with the bus open and the scan successful, discovery maps the
enumerated address set to its outcome: an empty set yields the no-device
failure; the first candidate in the fixed priority order [0x68, 0x69] that is
both enumerated and accepts the wake handshake becomes the bound address (in
particular a handle exists whenever some supported address is enumerated and
wakes); and a non-empty set with no supported address yields the
unsupported-device failure listing every enumerated address. -/
theorem c4_discovery (devices : List Nat) (wakeOk : Nat → Bool) :
    (devices = [] → try_init_imu (Except.ok ()) (Except.ok devices) wakeOk =
        (none, some "No I2C devices found")) ∧
    (∀ a, MPU_ADDRESSES.find? (fun x => decide (x ∈ devices) && wakeOk x) = some a →
        try_init_imu (Except.ok ()) (Except.ok devices) wakeOk = (some a, none)) ∧
    ((∃ a ∈ MPU_ADDRESSES, a ∈ devices ∧ wakeOk a = true) →
        ∃ a, try_init_imu (Except.ok ()) (Except.ok devices) wakeOk = (some a, none) ∧
          a ∈ devices ∧ wakeOk a = true) ∧
    (devices ≠ [] → (∀ a ∈ MPU_ADDRESSES, a ∉ devices) →
        try_init_imu (Except.ok ()) (Except.ok devices) wakeOk =
          (none, some ("No MPU found. Devices: " ++ deviceListStr devices))) := by
  refine ⟨?_, ?_, ?_, ?_⟩
  · intro h
    subst h
    simp [try_init_imu]
  · intro a hfind
    have hpred := List.find?_some hfind
    have hmem : a ∈ devices := by
      simp only [Bool.and_eq_true, decide_eq_true_eq] at hpred
      exact hpred.1
    have hne : devices ≠ [] := by
      intro h
      subst h
      simp at hmem
    simp [try_init_imu, hne, tryAddrs_eq_find, hfind]
  · intro hex
    have hsome : (MPU_ADDRESSES.find?
        (fun x => decide (x ∈ devices) && wakeOk x)).isSome := by
      rw [List.find?_isSome]
      obtain ⟨a, ha, hadev, hw⟩ := hex
      exact ⟨a, ha, by simp [hadev, hw]⟩
    obtain ⟨a, hfind⟩ := Option.isSome_iff_exists.mp hsome
    have hpred := List.find?_some hfind
    simp only [Bool.and_eq_true, decide_eq_true_eq] at hpred
    have hne : devices ≠ [] := by
      intro h
      subst h
      simp at hpred
    refine ⟨a, ?_, hpred.1, hpred.2⟩
    simp [try_init_imu, hne, tryAddrs_eq_find, hfind]
  · intro hne hnotin
    have hfind : MPU_ADDRESSES.find?
        (fun x => decide (x ∈ devices) && wakeOk x) = none := by
      rw [List.find?_eq_none]
      intro x hx
      simp [hnotin x hx]
    simp [try_init_imu, hne, tryAddrs_eq_find, hfind]

/-- Witness for C4: the three scenarios of the claim at concrete inputs:
scan set [0x69] with a working handshake binds 0x69; scan set [0x10] yields
the unsupported-device diagnostic listing 0x10; the empty scan set yields the
no-device failure. -/
theorem c4_discovery_witness :
    try_init_imu (Except.ok ()) (Except.ok [0x69]) (fun _ => true) =
      (some 0x69, none) ∧
    try_init_imu (Except.ok ()) (Except.ok [0x10]) (fun _ => true) =
      (none, some ("No MPU found. Devices: " ++ deviceListStr [0x10])) ∧
    try_init_imu (Except.ok ()) (Except.ok []) (fun _ => true) =
      (none, some "No I2C devices found") :=
  ⟨(c4_discovery [0x69] (fun _ => true)).2.1 0x69 (by decide),
   (c4_discovery [0x10] (fun _ => true)).2.2.2 (by decide) (by decide),
   (c4_discovery [] (fun _ => true)).1 rfl⟩

/-- Claim C10: discovery always returns exactly one of a bound address or a
non-empty diagnostic string, never both and never neither; and when supported
addresses are enumerated but every wake handshake fails, the result is the
same no-MPU diagnostic listing the enumerated addresses, not a distinct
handshake-failure outcome. -/
theorem c10_discovery_outcome (openRes : Except String Unit)
    (scanRes : Except String (List Nat)) (wakeOk : Nat → Bool) :
    ((∃ a, try_init_imu openRes scanRes wakeOk = (some a, none)) ∨
     (∃ msg, try_init_imu openRes scanRes wakeOk = (none, some msg) ∧ msg ≠ "")) ∧
    (∀ devices, openRes = Except.ok () → scanRes = Except.ok devices →
      (∃ a ∈ MPU_ADDRESSES, a ∈ devices) →
      (∀ a ∈ MPU_ADDRESSES, wakeOk a = false) →
      try_init_imu openRes scanRes wakeOk =
        (none, some ("No MPU found. Devices: " ++ deviceListStr devices))) := by
  constructor
  · cases openRes with
    | error e =>
      exact Or.inr ⟨"I2C init failed: " ++ e, rfl,
        append_ne_empty_left _ e (by decide)⟩
    | ok u =>
      cases scanRes with
      | error e =>
        exact Or.inr ⟨"I2C scan failed: " ++ e, rfl,
          append_ne_empty_left _ e (by decide)⟩
      | ok devices =>
        by_cases hne : devices = []
        · subst hne
          exact Or.inr ⟨"No I2C devices found", by simp [try_init_imu], by decide⟩
        · cases hfind : tryAddrs MPU_ADDRESSES devices wakeOk with
          | some a =>
            exact Or.inl ⟨a, by simp [try_init_imu, hne, hfind]⟩
          | none =>
            exact Or.inr ⟨"No MPU found. Devices: " ++ deviceListStr devices,
              by simp [try_init_imu, hne, hfind],
              append_ne_empty_left _ _ (by decide)⟩
  · intro devices hopen hscan hex hwake
    subst hopen
    subst hscan
    obtain ⟨a, ha, hadev⟩ := hex
    have hne : devices ≠ [] := by
      intro h
      subst h
      simp at hadev
    have hfind : MPU_ADDRESSES.find?
        (fun x => decide (x ∈ devices) && wakeOk x) = none := by
      rw [List.find?_eq_none]
      intro x hx
      simp [hwake x hx]
    simp [try_init_imu, hne, tryAddrs_eq_find, hfind]

/-- Witness for C10: 0x68 enumerated but its handshake failing yields the same
no-MPU diagnostic listing 0x68. -/
theorem c10_discovery_outcome_witness :
    try_init_imu (Except.ok ()) (Except.ok [0x68]) (fun _ => false) =
      (none, some ("No MPU found. Devices: " ++ deviceListStr [0x68])) :=
  (c10_discovery_outcome (Except.ok ()) (Except.ok [0x68]) (fun _ => false)).2
    [0x68] rfl rfl (by decide) (by decide)

end IMULive

namespace IMULive

/-- State of `StatusBar`'s render cache: the last drawn time string and the
last drawn battery level, as held in `_last_time_str` / `_last_batt_level`. -/
structure SBState where
  last_time_str : String
  last_batt_level : Int
deriving DecidableEq, Repr

/-- The cache as seeded by `StatusBar.__init__`: empty time string and
battery level -1. -/
def sbInit : SBState := ⟨"", -1⟩

/-- The Python format `{n:02d}`: decimal digits left-padded with zeros to at
least two digits. -/
def pad2 (n : Nat) : String :=
  if n < 10 then "0" ++ toString n else toString n

/-- The time string built in `StatusBar.draw` from a successful
`time.localtime`: optional 12-hour conversion, then `HH:MM` formatting. -/
def makeTimeStr (hour minute : Nat) (use12h : Bool) : String :=
  let hour := if use12h then
      (if hour = 0 then 12 else if hour > 12 then hour - 12 else hour)
    else hour
  pad2 hour ++ ":" ++ pad2 minute

/-- The candidate time string of one `draw` call: the formatted clock value,
or the fallback shown when reading the clock raises. -/
def timeCandidate (clock : Option (Nat × Nat)) (use12h : Bool) : String :=
  match clock with
  | some (h, m) => makeTimeStr h m use12h
  | none => "--:--"

/-- The candidate battery level of one `draw` call: the value read from the
battery, or -1 when the battery object is absent or the read raises. -/
def battCandidate (battRead : Option Int) : Int :=
  match battRead with
  | some v => v
  | none => -1

/-- One `StatusBar.draw` call over the cache: for each region, compare the
candidate against the cached value, issue the region's draw operations only
on a difference, and record the candidate in the cache when drawn. Returns
(time region drawn, battery region drawn, new cache). -/
def sbDraw (s : SBState) (time_str : String) (batt_level : Int) :
    Bool × Bool × SBState :=
  let drawTime := time_str != s.last_time_str
  let s1 := if drawTime then { s with last_time_str := time_str } else s
  let drawBatt := batt_level != s1.last_batt_level
  let s2 := if drawBatt then { s1 with last_batt_level := batt_level } else s1
  (drawTime, drawBatt, s2)

end IMULive

namespace IMULive

/-- The formatted time string is never empty (it always contains a colon). -/
lemma makeTimeStr_ne_empty (h m : Nat) (u : Bool) : makeTimeStr h m u ≠ "" := by
  intro hEq
  have hlen := congrArg String.length hEq
  rw [makeTimeStr, String.length_append, String.length_append,
    String.length_empty] at hlen
  have hc : (":" : String).length = 1 := rfl
  omega

/-- The candidate time string of a draw call is never empty. -/
lemma timeCandidate_ne_empty (clock : Option (Nat × Nat)) (u : Bool) :
    timeCandidate clock u ≠ "" := by
  cases clock with
  | none => simp [timeCandidate]
  | some hm => exact makeTimeStr_ne_empty hm.1 hm.2 u

/-- Counterexample to claim C5 as stated: on a freshly seeded cache, a first
draw call whose battery read fails (or whose battery is absent) carries the
candidate level -1, which equals the -1 sentinel, so the battery region is
not redrawn: the first draw does not redraw every region. -/
theorem c5_first_draw_counterexample :
    (sbDraw sbInit (timeCandidate (some (12, 0)) false)
      (battCandidate none)).2.1 = false := by
  decide

/-- Claim C5 as amended: on a freshly seeded cache, the first draw call always
redraws the time region (the empty-string sentinel never equals a candidate
time string), and it redraws the battery region exactly when the candidate
battery level differs from the -1 sentinel — when the battery is absent or
its read fails, the candidate is -1 itself and the region is not redrawn. -/
theorem c5_first_draw_amended (clock : Option (Nat × Nat)) (u12 : Bool)
    (battRead : Option Int) :
    (sbDraw sbInit (timeCandidate clock u12) (battCandidate battRead)).1 = true ∧
    ((sbDraw sbInit (timeCandidate clock u12) (battCandidate battRead)).2.1 = true
      ↔ battCandidate battRead ≠ -1) := by
  have ht : timeCandidate clock u12 ≠ "" := timeCandidate_ne_empty clock u12
  constructor
  · simp [sbDraw, sbInit, ht]
  · simp [sbDraw, sbInit, ht]

/-- Claim C6: in one draw call over any cache state, each region issues its
draw operations exactly when its candidate differs from its cached value, and
the resulting cache holds exactly the two candidates — so an equal candidate
leaves its entry unchanged and issues nothing, a differing candidate is drawn
and recorded, and neither region's update affects the other's entry. -/
theorem c6_render_cache (s : SBState) (t : String) (b : Int) :
    ((sbDraw s t b).1 = true ↔ t ≠ s.last_time_str) ∧
    ((sbDraw s t b).2.1 = true ↔ b ≠ s.last_batt_level) ∧
    (sbDraw s t b).2.2 = ⟨t, b⟩ := by
  obtain ⟨lt, lb⟩ := s
  by_cases h1 : t = lt <;> by_cases h2 : b = lb <;>
    simp [sbDraw, h1, h2]

end IMULive

namespace IMULive

/-- A scaled sample as returned by the scaled reader. -/
abbrev Scaled := ℚ × ℚ × ℚ × ℚ × ℚ × ℚ

/-- The observable effects of the `main` loops: polling the keyboard, the
machine reset taken on the exit key, a discovery attempt, one bus read,
the draw primitives and the inter-iteration sleep. -/
inductive Effect where
  | pollKeys
  | machineReset
  | discover
  | busRead
  | fillRect
  | renderStatus
  | renderData
  | renderError
  | displayShow
  | sleepMs
deriving DecidableEq, Repr

/-- Loop control after one iteration of the polling loop. -/
inductive LoopControl where
  | continueLoop
  | exitReset
deriving DecidableEq, Repr

/-- Effect trace of one iteration of the main polling loop: poll the keys,
reset on the exit key, otherwise read the sensor once and render either the
data screen or the read-error indicator, present the frame and sleep. -/
def pollLoopBodyTrace (keys : List String) (readRes : Option Scaled) :
    List Effect :=
  Effect.pollKeys ::
    (if "G0" ∈ keys then [Effect.machineReset]
     else Effect.busRead ::
       (match readRes with
        | some _ => [Effect.fillRect, Effect.renderStatus, Effect.renderData]
        | none => [Effect.fillRect, Effect.renderStatus, Effect.renderError])
       ++ [Effect.displayShow, Effect.sleepMs])

/-- Control outcome of one polling-loop iteration: the loop continues unless
the exit key was polled. -/
def pollLoopOutcome (keys : List String) : LoopControl :=
  if "G0" ∈ keys then LoopControl.exitReset else LoopControl.continueLoop

/-- Effect trace of one iteration of the error-wait loop entered when
discovery fails: poll the keys, reset on the exit key, otherwise sleep. -/
def errorWaitTrace (keys : List String) : List Effect :=
  Effect.pollKeys ::
    (if "G0" ∈ keys then [Effect.machineReset] else [Effect.sleepMs])

/-- Effect trace of `n` iterations of the error-wait loop, fed by a stream of
polled key sets; the trace stops at a machine reset. -/
def errorWaitRun : Nat → (Nat → List String) → List Effect
  | 0, _ => []
  | n + 1, ks =>
      errorWaitTrace (ks 0) ++
        (if "G0" ∈ ks 0 then []
         else errorWaitRun n (fun i => ks (i + 1)))

/-- Effect trace of `n` iterations of the main polling loop, fed by streams of
polled key sets and read results; the trace stops at a machine reset. -/
def pollRun : Nat → (Nat → List String) → (Nat → Option Scaled) → List Effect
  | 0, _, _ => []
  | n + 1, ks, reads =>
      pollLoopBodyTrace (ks 0) (reads 0) ++
        (if "G0" ∈ ks 0 then []
         else pollRun n (fun i => ks (i + 1)) (fun i => reads (i + 1)))

/-- The dispatch in `main` after `try_init_imu` returns: a missing handle
enters the terminal error-wait loop (the DeviceUnavailable state), a bound
handle enters the polling loop. -/
def appTraceAfterInit (initRes : Option Nat × Option String) (n : Nat)
    (ks : Nat → List String) (reads : Nat → Option Scaled) : List Effect :=
  match initRes.1 with
  | none => errorWaitRun n ks
  | some _ => pollRun n ks reads

end IMULive

namespace IMULive

/-- Claim C7: a per-cycle read failure never crashes the polling loop: any
failing bus read makes the scaled reader return `none` instead of raising,
the iteration renders the read-error indicator, still presents the frame,
and the loop continues to the next tick. -/
theorem c7_read_failure (e : String) (keys : List String)
    (hk : "G0" ∉ keys) :
    read_scaled_data (Except.error e) = none ∧
    pollLoopBodyTrace keys (read_scaled_data (Except.error e)) =
      [Effect.pollKeys, Effect.busRead, Effect.fillRect, Effect.renderStatus,
       Effect.renderError, Effect.displayShow, Effect.sleepMs] ∧
    Effect.renderError ∈ pollLoopBodyTrace keys (read_scaled_data (Except.error e)) ∧
    pollLoopOutcome keys = LoopControl.continueLoop := by
  have hnone : read_scaled_data (Except.error e) = none := rfl
  refine ⟨hnone, ?_, ?_, ?_⟩
  · simp [hnone, pollLoopBodyTrace, hk]
  · simp [hnone, pollLoopBodyTrace, hk]
  · simp [pollLoopOutcome, hk]

/-- Witness for C7: a concrete timed-out read in an iteration with no exit
key renders the error indicator and continues. -/
theorem c7_read_failure_witness :
    read_scaled_data (Except.error "timeout") = none ∧
    pollLoopBodyTrace [] (read_scaled_data (Except.error "timeout")) =
      [Effect.pollKeys, Effect.busRead, Effect.fillRect, Effect.renderStatus,
       Effect.renderError, Effect.displayShow, Effect.sleepMs] ∧
    Effect.renderError ∈ pollLoopBodyTrace [] (read_scaled_data (Except.error "timeout")) ∧
    pollLoopOutcome [] = LoopControl.continueLoop :=
  c7_read_failure "timeout" [] (by decide)

/-- Claim C9: in every iteration of the polling loop the exit signal is
polled exactly once, and that poll is the first effect of the iteration, so
it happens before the sensor read and before any rendering. -/
theorem c9_exit_check (keys : List String) (readRes : Option Scaled) :
    (pollLoopBodyTrace keys readRes).count Effect.pollKeys = 1 ∧
    (pollLoopBodyTrace keys readRes).head? = some Effect.pollKeys := by
  by_cases hk : "G0" ∈ keys <;> cases readRes <;>
    simp [pollLoopBodyTrace, hk, List.count_cons]

end IMULive

namespace IMULive

/-- Every effect of the error-wait loop is a key poll, a machine reset or a
sleep: the DeviceUnavailable loop neither reads the bus nor retries
discovery. -/
lemma errorWaitRun_effects (n : Nat) (ks : Nat → List String) :
    ∀ x ∈ errorWaitRun n ks,
      x = Effect.pollKeys ∨ x = Effect.machineReset ∨ x = Effect.sleepMs := by
  induction n generalizing ks with
  | zero =>
    intro x hx
    simp [errorWaitRun] at hx
  | succ n ih =>
    intro x hx
    rw [errorWaitRun] at hx
    rcases List.mem_append.mp hx with hx | hx
    · by_cases hk : "G0" ∈ ks 0 <;>
        simp [errorWaitTrace, hk] at hx <;> tauto
    · by_cases hk : "G0" ∈ ks 0
      · simp [hk] at hx
      · rw [if_neg hk] at hx
        exact ih (fun i => ks (i + 1)) x hx

/-- Claim C8: after a terminal discovery failure (no device handle), the app
stays in the error-wait state for every subsequent iteration: its whole trace
never contains a bus read or a discovery attempt, and every effect it does
contain is a key poll, the exit reset or the sleep. -/
theorem c8_device_unavailable (initRes : Option Nat × Option String) (n : Nat)
    (ks : Nat → List String) (reads : Nat → Option Scaled)
    (h : initRes.1 = none) :
    Effect.busRead ∉ appTraceAfterInit initRes n ks reads ∧
    Effect.discover ∉ appTraceAfterInit initRes n ks reads ∧
    (appTraceAfterInit initRes n ks reads).all
      (fun x => x == Effect.pollKeys || x == Effect.machineReset ||
        x == Effect.sleepMs) = true := by
  have htr : appTraceAfterInit initRes n ks reads = errorWaitRun n ks := by
    unfold appTraceAfterInit
    rw [h]
  rw [htr]
  have hall := errorWaitRun_effects n ks
  refine ⟨?_, ?_, ?_⟩
  · intro hmem
    rcases hall _ hmem with h1 | h1 | h1 <;> cases h1
  · intro hmem
    rcases hall _ hmem with h1 | h1 | h1 <;> cases h1
  · rw [List.all_eq_true]
    intro x hx
    rcases hall x hx with h1 | h1 | h1 <;> simp [h1]

/-- Witness for C8: two iterations after a concrete failed discovery result
poll the keys and sleep only — no bus read, no discovery. -/
theorem c8_device_unavailable_witness :
    Effect.busRead ∉ appTraceAfterInit (none, some "No I2C devices found") 2
      (fun _ => []) (fun _ => none) ∧
    Effect.discover ∉ appTraceAfterInit (none, some "No I2C devices found") 2
      (fun _ => []) (fun _ => none) ∧
    (appTraceAfterInit (none, some "No I2C devices found") 2
      (fun _ => []) (fun _ => none)).all
      (fun x => x == Effect.pollKeys || x == Effect.machineReset ||
        x == Effect.sleepMs) = true :=
  c8_device_unavailable (none, some "No I2C devices found") 2
    (fun _ => []) (fun _ => none) rfl

end IMULive
